import Mathlib

/-!
Verification of the deferred-delivery scheduler of a gotify-based
notification server.  The Go sources embedded here are
`scheduler/scheduler.go` (Scheduler, Job Registry, fire-time callback,
recovery loader, cascade cancellers, `ToExternalMessage`) and
`api/message.go` (`toInternalMessage`, `CreateMessage`'s dispatch choice,
`postponeMessage`).

Modelling conventions:
* instants (`time.Time`) are integers, ordered as times are;
* the GORM store and the application directory are value-level lists with
  a `readFails` flag modelling an I/O failure of a read, and a
  `writeFails` flag for a failing write;
* JSON-marshalled `Extras` bytes are modelled at the map level: the
  internal `[]byte` field is `none` when the slice is nil/empty (Go
  `len(msg.Extras) == 0`) and `some m` when it holds the marshalling of
  map `m` (marshalling a map always yields at least "{}", so the slice is
  non-empty exactly when it was set);
* the external Timer Engine (gocron) is taken at its interface boundary:
  `NewJob` either yields a fresh job handle (also for instants not in the
  future, which fire as soon as possible) or reports an error; the
  environment's answer is the `engineAccepts` argument.
-/

/-- Instants in time (`time.Time`), totally ordered. -/
abbrev Instant := Int

/-- Extras maps (`map[string]interface{}`), opaque to the scheduler core;
modelled as association lists of strings. -/
abbrev ExtrasMap := List (String × String)

/-- Internal persisted message (`model.Message`).  `extras` models the
JSON-marshalled `[]byte`: `none` for a nil/empty slice. -/
structure Message where
  id : Nat
  applicationID : Nat
  message : String
  title : String
  priority : Int
  date : Instant
  postponedAt : Option Instant
  extras : Option ExtrasMap
deriving Repr, DecidableEq

/-- External message (`model.MessageExternal`) with its nullable
`Priority` pointer and nullable extras map. -/
structure MessageExternal where
  id : Nat
  applicationID : Nat
  message : String
  title : String
  priority : Option Int
  date : Instant
  postponedAt : Option Instant
  extras : Option ExtrasMap
deriving Repr, DecidableEq

/-- An application (`model.Application`): `userID` is its owning user. -/
structure Application where
  id : Nat
  userID : Nat
  name : String
  defaultPriority : Int
deriving Repr, DecidableEq

/-- `scheduler.ToExternalMessage` (scheduler.go lines 99-114): copies all
fields, takes the address of `Priority` (always non-nil), and unmarshals
`Extras` only when the byte slice is non-empty. -/
def ToExternalMessage (msg : Message) : MessageExternal :=
  let res : MessageExternal :=
    { id := msg.id
      applicationID := msg.applicationID
      message := msg.message
      title := msg.title
      priority := some msg.priority
      date := msg.date
      postponedAt := msg.postponedAt
      extras := none }
  match msg.extras with
  | some e => { res with extras := some e }
  | none => res

/-- `api.toInternalMessage` (message.go lines 456-473): copies the common
fields, dereferences `Priority` when non-nil (zero value 0 otherwise), and
marshals `Extras` when the map is non-nil. -/
def toInternalMessage (msg : MessageExternal) : Message :=
  { id := msg.id
    applicationID := msg.applicationID
    message := msg.message
    title := msg.title
    priority := msg.priority.getD 0
    date := msg.date
    postponedAt := msg.postponedAt
    extras := msg.extras }

/-- Database errors observable by the scheduler core. -/
inductive DBErr where
  | recordNotFound
  | ioError
deriving Repr, DecidableEq

/-- The Message Store: the persisted messages plus failure flags for
modelling an I/O error on a read or a write. -/
structure Store where
  messages : List Message
  readFails : Bool
  writeFails : Bool
deriving Repr, DecidableEq

/-- The application directory (users' applications) with a read-failure
flag. -/
structure Directory where
  apps : List Application
  readFails : Bool
deriving Repr, DecidableEq

/-- `s.db.DB.Where("id = ?", msgId).First(&message)` — a point lookup that
errors with `recordNotFound` when no row matches (GORM `First`) and with
an I/O error when the read fails. -/
def storeFirst (store : Store) (msgId : Nat) : Except DBErr Message :=
  if store.readFails then .error .ioError
  else
    match store.messages.find? (fun m => m.id == msgId) with
    | none => .error .recordNotFound
    | some m => .ok m

/-- Whether a persisted message satisfies the recovery query
`postponed_at >= now` (a NULL `postponed_at` never matches). -/
def isDue (now : Instant) (m : Message) : Bool :=
  match m.postponedAt with
  | some t => decide (now ≤ t)
  | none => false

/-- `s.db.DB.Where("postponed_at >= ?", time.Now()).Find(&messages)` —
GORM `Find` leaves the slice empty on a read error and the code ignores
the error. -/
def storeFindDue (now : Instant) (store : Store) : List Message :=
  if store.readFails then [] else store.messages.filter (isDue now)

/-- `s.db.DB.Where("application_id = ?", appID).Find(&messages)` — same
error-swallowing `Find`. -/
def storeFindByApplication (store : Store) (appId : Nat) : List Message :=
  if store.readFails then []
  else store.messages.filter (fun m => m.applicationID == appId)

/-- `s.db.GetApplicationsByUser(userID)` — returns the user's
applications or a database error. -/
def getApplicationsByUser (dir : Directory) (userId : Nat) :
    Except DBErr (List Application) :=
  if dir.readFails then .error .ioError
  else .ok (dir.apps.filter (fun a => a.userID == userId))

/-- `a.DB.GetMessageByID(id)` — `ok none` when no row exists. -/
def getMessageByID (store : Store) (id : Nat) : Except DBErr (Option Message) :=
  if store.readFails then .error .ioError
  else .ok (store.messages.find? (fun m => m.id == id))

/-- `a.DB.GetApplicationByID(id)` — `ok none` when no row exists. -/
def getApplicationByID (dir : Directory) (id : Nat) :
    Except DBErr (Option Application) :=
  if dir.readFails then .error .ioError
  else .ok (dir.apps.find? (fun a => a.id == id))

/-- Modelled from the spec: the `database` package's
`UpdateMessagePostponement(id, postponedAt)` (declared in message.go's
`MessageDatabase` interface, implementation not among the sources) sets
the persisted `postponedAt` of the message with that id — the store
operation the spec calls `clearPostponement` when the argument is null. -/
def updateMessagePostponement (store : Store) (id : Nat)
    (postponedAt : Option Instant) : Except DBErr Store :=
  if store.writeFails then .error .ioError
  else
    .ok { store with
          messages := store.messages.map
            (fun m => if m.id == id then { m with postponedAt := postponedAt } else m) }

/-- A pending one-shot job inside the Timer Engine: the gocron job handle,
the message it will deliver, and its absolute fire instant. -/
structure EngineJob where
  jobId : Nat
  msgId : Nat
  fireAt : Instant
deriving Repr, DecidableEq

/-- The scheduler's in-process state: the `jobs` map (message id → job
handle, scheduler.go line 21) as an association list with map semantics,
the Timer Engine's pending jobs, and a fresh-handle counter modelling
`uuid` generation. -/
structure SchedState where
  registry : List (Nat × Nat)
  engine : List EngineJob
  nextJobId : Nat
deriving Repr, DecidableEq

/-- Go map read `jobs[msgId]`: the value stored for the key, if any. -/
def lookupReg (k : Nat) : List (Nat × Nat) → Option Nat
  | [] => none
  | (k', v) :: rest => if k' == k then some v else lookupReg k rest

/-- Go map `delete(jobs, k)`: removes every binding of the key. -/
def eraseReg (k : Nat) (l : List (Nat × Nat)) : List (Nat × Nat) :=
  l.filter (fun p => p.1 != k)

/-- Go map write `jobs[k] = v`: overwrites any prior binding of the key. -/
def insertReg (k v : Nat) (l : List (Nat × Nat)) : List (Nat × Nat) :=
  (k, v) :: eraseReg k l

/-- Fresh scheduler state: the `jobs` map starts empty at process start
and the engine holds no jobs. -/
def initState : SchedState := ⟨[], [], 0⟩

/-- `Scheduler.ScheduleMessage` (scheduler.go lines 49-72), state part.
`engineAccepts` is the Timer Engine's answer to `NewJob`: on success a
fresh job pending at `postponedAt` is created and its handle stored under
`msgId` (overwriting any prior registry entry, without touching the prior
entry's timer); on error the function logs and returns with no state
change.  The fire-time task body is `fireTask` below. -/
def ScheduleMessage (engineAccepts : Bool) (st : SchedState) (msgId : Nat)
    (postponedAt : Instant) : SchedState :=
  if engineAccepts then
    { registry := insertReg msgId st.nextJobId st.registry
      engine := st.engine ++ [⟨st.nextJobId, msgId, postponedAt⟩]
      nextJobId := st.nextJobId + 1 }
  else st

/-- `Scheduler.DeleteMessageSchedule` (scheduler.go lines 74-81): look up
the message's job handle; if absent return at once, otherwise remove the
job from the Timer Engine and delete the registry entry. -/
def DeleteMessageSchedule (st : SchedState) (message : Message) : SchedState :=
  match lookupReg message.id st.registry with
  | none => st
  | some jobId =>
      { st with
        registry := eraseReg message.id st.registry
        engine := st.engine.filter (fun j => j.jobId != jobId) }

/-- Outcome of the fire-time task: either the Go `panic(db.Error)` or a
normal return carrying the new scheduler state, the `Notify` call's
arguments, and the store as left behind. -/
inductive FireOutcome where
  | panicked (e : DBErr)
  | ok (st : SchedState) (delivery : Nat × MessageExternal) (store : Store)
deriving Repr, DecidableEq

/-- The fire-time task of `ScheduleMessage` (scheduler.go lines 54-65):
reload the message by id (`First`); on any database error print and
`panic`; otherwise set `userId := message.ApplicationID`, remove the
message from the job list only (the comment keeps the postponed date and
time — no store write happens), and call
`s.api.Notify(userId, ToExternalMessage(&message))`. -/
def fireTask (store : Store) (st : SchedState) (msgId : Nat) : FireOutcome :=
  match storeFirst store msgId with
  | .error e => .panicked e
  | .ok message =>
      let userId := message.applicationID
      let st' := DeleteMessageSchedule st message
      .ok st' (userId, ToExternalMessage message) store

/-- The store the fire-time task leaves behind, when it returns. -/
def FireOutcome.storeOf : FireOutcome → Option Store
  | .panicked _ => none
  | .ok _ _ store => some store

/-- The user-id argument the fire-time task passes to `Notify`, when it
returns. -/
def FireOutcome.targetOf : FireOutcome → Option Nat
  | .panicked _ => none
  | .ok _ d _ => some d.1

/-- The message the fire-time task passes to `Notify`, when it returns. -/
def FireOutcome.messageOf : FireOutcome → Option MessageExternal
  | .panicked _ => none
  | .ok _ d _ => some d.2

/-- The scheduler state after the fire-time task, when it returns. -/
def FireOutcome.stateOf : FireOutcome → Option SchedState
  | .panicked _ => none
  | .ok st _ _ => some st

/-- `Scheduler.DeleteMessagesScheduleByApplication` (scheduler.go lines
83-89): `Find` the application's messages (error ignored, empty slice on
a failed read) and cancel each. -/
def DeleteMessagesScheduleByApplication (store : Store) (st : SchedState)
    (appId : Nat) : SchedState :=
  (storeFindByApplication store appId).foldl DeleteMessageSchedule st

/-- `Scheduler.DeleteMessagesScheduleByUser` (scheduler.go lines 91-96):
`app, _ := s.db.GetApplicationsByUser(userID)` — the error is discarded
(the slice is nil on failure) — then cascade per application. -/
def DeleteMessagesScheduleByUser (dir : Directory) (store : Store)
    (st : SchedState) (userId : Nat) : SchedState :=
  (((getApplicationsByUser dir userId).toOption).getD []).foldl
    (fun s a => DeleteMessagesScheduleByApplication store s a.id) st

/-- Folding `ScheduleMessage` with an accepting engine over a list of
messages, as `scheduleAll`'s loop does. -/
def schedList (l : List Message) (st : SchedState) : SchedState :=
  l.foldl (fun s m => ScheduleMessage true s m.id (m.postponedAt.getD 0)) st

/-- `Scheduler.scheduleAll` (scheduler.go lines 41-47), run by `Init` on
the fresh state: query all messages with `postponed_at >= now` and call
`ScheduleMessage(id, *postponedAt)` on each (engine accepting). -/
def scheduleAll (now : Instant) (store : Store) (st : SchedState) : SchedState :=
  schedList (storeFindDue now store) st

/-- Modelled from the spec: `auth.GetUserID` on an application-token
request (the `auth` package is not among the sources) resolves the token
to the owning user of the authenticated application, so
`CreateMessage`'s immediate path `a.Notifier.Notify(auth.GetUserID(ctx),
...)` (message.go line 401) passes the application's owner. -/
def createMessageNotifyTarget (application : Application) : Nat :=
  application.userID

/-- One scheduler operation, for reasoning about arbitrary sequences of
schedule / cancel / fire / cascade-cancel calls. -/
inductive SchedOp where
  | schedule (engineAccepts : Bool) (msgId : Nat) (fireAt : Instant)
  | cancel (message : Message)
  | fire (msgId : Nat)
  | cascadeApp (appId : Nat)
  | cascadeUser (userId : Nat)
deriving Repr, DecidableEq

/-- Effect of one scheduler operation on the in-process state (a `fire`
whose task panics leaves the modelled state as it was before the task's
registry removal). -/
def runOp (dir : Directory) (store : Store) (st : SchedState) :
    SchedOp → SchedState
  | .schedule b id t => ScheduleMessage b st id t
  | .cancel m => DeleteMessageSchedule st m
  | .fire id =>
      match fireTask store st id with
      | .panicked _ => st
      | .ok st' _ _ => st'
  | .cascadeApp a => DeleteMessagesScheduleByApplication store st a
  | .cascadeUser u => DeleteMessagesScheduleByUser dir store st u

/-- A sequence of scheduler operations, run left to right. -/
def runOps (dir : Directory) (store : Store) (st : SchedState)
    (ops : List SchedOp) : SchedState :=
  ops.foldl (runOp dir store) st

/-- The Job Registry is a well-formed map: no message id is bound twice. -/
def registryOk (st : SchedState) : Prop :=
  (st.registry.map Prod.fst).Nodup

/-- Number of pending Timer Engine jobs for one message id. -/
def liveJobs (st : SchedState) (id : Nat) : Nat :=
  st.engine.countP (fun j => j.msgId == id)

/-- Result of the `postponeMessage` gin handler: the HTTP status it ends
with, and on the 200 path the scheduler state and store it leaves. -/
inductive HandlerResult where
  | ok (st : SchedState) (store : Store)
  | aborted (status : Nat)
deriving Repr, DecidableEq

/-- The HTTP status of a handler result (200 on the success path). -/
def HandlerResult.status : HandlerResult → Nat
  | .ok _ _ => 200
  | .aborted s => s

/-- The scheduler registry a handler result leaves (empty for an abort). -/
def HandlerResult.regOf : HandlerResult → List (Nat × Nat)
  | .ok st _ => st.registry
  | .aborted _ => []

/-- `MessageAPI.postponeMessage` (message.go lines 408-432): load the
message (500 on store error, 404 when absent), load its application (500
on error), check ownership against the authenticated user (404 on
mismatch), then cancel the message's schedule, re-schedule when a new
instant is given, and persist the new postponement (500 on write error,
200 otherwise).  `engineAccepts` is the Timer Engine's answer to the
inner `ScheduleMessage`. -/
def postponeMessageCore (engineAccepts : Bool) (dir : Directory)
    (store : Store) (st : SchedState) (id : Nat)
    (postponedAt : Option Instant) (authUserId : Nat) : HandlerResult :=
  match getMessageByID store id with
  | .error _ => .aborted 500
  | .ok none => .aborted 404
  | .ok (some msg) =>
      match getApplicationByID dir msg.applicationID with
      | .error _ => .aborted 500
      | .ok appOpt =>
          match appOpt with
          | some app =>
              if app.userID == authUserId then
                let st1 := DeleteMessageSchedule st msg
                let st2 :=
                  match postponedAt with
                  | some t => ScheduleMessage engineAccepts st1 msg.id t
                  | none => st1
                match updateMessagePostponement store id postponedAt with
                | .error _ => .aborted 500
                | .ok store' => .ok st2 store'
              else .aborted 404
          | none => .aborted 404

/-- Example message: id 1, application 7, postponed to instant 5. -/
def exMsg1 : Message := ⟨1, 7, "m", "t", 0, 0, some 5, none⟩

/-- Example store holding only `exMsg1`, healthy. -/
def exStore1 : Store := ⟨[exMsg1], false, false⟩

/-- Empty store (the message was deleted), healthy. -/
def exStoreEmpty : Store := ⟨[], false, false⟩

/-- Store holding `exMsg1` whose reads fail with an I/O error. -/
def exStoreFail : Store := ⟨[exMsg1], true, false⟩

/-- Scheduler state with one live job (handle 0) for message 1. -/
def exSt1 : SchedState := ⟨[(1, 0)], [⟨0, 1, 5⟩], 1⟩

/-- Example application with id 5 owned by user 2 (id and owner differ). -/
def exApp5 : Application := ⟨5, 2, "app", 0⟩

/-- Example message belonging to application 5 (owned by user 2). -/
def exMsg5 : Message := ⟨1, 5, "m", "t", 0, 0, some 5, none⟩

/-- Store holding only `exMsg5`, healthy. -/
def exStore5 : Store := ⟨[exMsg5], false, false⟩

/-- Directory with application 7 owned by user 2, healthy. -/
def exDirOwner : Directory := ⟨[⟨7, 2, "app", 0⟩], false⟩

/-- Directory with application 7 owned by user 4, whose reads fail. -/
def exDirFail : Directory := ⟨[⟨7, 4, "app", 0⟩], true⟩

/-- Empty healthy directory. -/
def exDirEmpty : Directory := ⟨[], false⟩

/-- Recovery example: message 1 still due at instant 0 (postponed to 10). -/
def exMsgW1 : Message := ⟨1, 7, "a", "t", 0, 0, some 10, none⟩

/-- Recovery example: message 2 overdue at instant 0 (postponed to -3). -/
def exMsgW2 : Message := ⟨2, 7, "b", "t", 0, 0, some (-3), none⟩

/-- Store holding one due and one overdue message, healthy. -/
def exStoreW : Store := ⟨[exMsgW1, exMsgW2], false, false⟩

/-- External message with non-nil priority and nil extras, for the
conversion round-trip. -/
def exExt : MessageExternal := ⟨3, 7, "hello", "title", some 4, 11, some 99, none⟩

/-! Helper lemmas about the registry map and folded scheduling. -/

lemma fst_not_mem_eraseReg (k : Nat) (l : List (Nat × Nat)) :
    k ∉ (eraseReg k l).map Prod.fst := by
  simp only [eraseReg, List.mem_map]
  rintro ⟨p, hp, hk⟩
  have := List.of_mem_filter hp
  simp [bne_iff_ne, hk] at this

lemma nodupKeys_eraseReg (k : Nat) (l : List (Nat × Nat))
    (h : (l.map Prod.fst).Nodup) : ((eraseReg k l).map Prod.fst).Nodup :=
  ((List.filter_sublist l).map Prod.fst).nodup h

lemma nodupKeys_insertReg (k v : Nat) (l : List (Nat × Nat))
    (h : (l.map Prod.fst).Nodup) : ((insertReg k v l).map Prod.fst).Nodup := by
  simp only [insertReg, List.map_cons]
  exact List.nodup_cons.mpr ⟨fst_not_mem_eraseReg k l, nodupKeys_eraseReg k l h⟩

lemma lookupReg_eraseReg_ne (k id : Nat) (l : List (Nat × Nat)) (h : k ≠ id) :
    lookupReg id (eraseReg k l) = lookupReg id l := by
  induction l with
  | nil => rfl
  | cons p rest ih =>
      obtain ⟨a, b⟩ := p
      by_cases hak : a = k
      · subst hak
        have h1 : (a != a) = false := by simp
        simp only [eraseReg, List.filter_cons, h1, if_false, lookupReg]
        simp only [show (a == id) = false by simp [h]]
        simpa [eraseReg] using ih
      · have h1 : (a != k) = true := by simp [hak]
        simp only [eraseReg, List.filter_cons, h1, if_true, lookupReg]
        by_cases haid : a = id
        · simp [haid]
        · simp only [show (a == id) = false by simp [haid]]
          simpa [eraseReg] using ih

lemma lookupReg_insertReg (k v id : Nat) (l : List (Nat × Nat)) :
    lookupReg id (insertReg k v l) =
      if k == id then some v else lookupReg id l := by
  by_cases h : k = id
  · simp [insertReg, lookupReg, h]
  · simp only [insertReg, lookupReg, show (k == id) = false by simp [h], if_false]
    exact lookupReg_eraseReg_ne k id l h

lemma liveJobs_ScheduleMessage_true (st : SchedState) (k id : Nat) (t : Instant) :
    liveJobs (ScheduleMessage true st k t) id =
      liveJobs st id + (if k == id then 1 else 0) := by
  simp [liveJobs, ScheduleMessage, List.countP_append, List.countP_cons]

lemma liveJobs_schedList (l : List Message) (st : SchedState) (id : Nat) :
    liveJobs (schedList l st) id =
      liveJobs st id + l.countP (fun m => m.id == id) := by
  induction l generalizing st with
  | nil => simp [schedList]
  | cons m rest ih =>
      show liveJobs (schedList rest
        (ScheduleMessage true st m.id (m.postponedAt.getD 0))) id = _
      rw [ih, liveJobs_ScheduleMessage_true]
      simp only [List.countP_cons]
      omega

lemma lookupReg_schedList_mono (l : List Message) (st : SchedState) (id : Nat)
    (h : (lookupReg id st.registry).isSome = true) :
    (lookupReg id (schedList l st).registry).isSome = true := by
  induction l generalizing st with
  | nil => exact h
  | cons m rest ih =>
      show (lookupReg id (schedList rest
        (ScheduleMessage true st m.id (m.postponedAt.getD 0))).registry).isSome = true
      apply ih
      rw [show (ScheduleMessage true st m.id (m.postponedAt.getD 0)).registry =
            insertReg m.id st.nextJobId st.registry from rfl, lookupReg_insertReg]
      by_cases hm : m.id = id
      · simp [hm]
      · simpa [hm] using h

lemma lookupReg_schedList_of_mem (l : List Message) (st : SchedState) (m : Message)
    (hm : m ∈ l) :
    (lookupReg m.id (schedList l st).registry).isSome = true := by
  induction l generalizing st with
  | nil => cases hm
  | cons a rest ih =>
      rcases List.mem_cons.mp hm with h | h
      · subst h
        show (lookupReg m.id (schedList rest
          (ScheduleMessage true st m.id (m.postponedAt.getD 0))).registry).isSome = true
        apply lookupReg_schedList_mono
        rw [show (ScheduleMessage true st m.id (m.postponedAt.getD 0)).registry =
              insertReg m.id st.nextJobId st.registry from rfl, lookupReg_insertReg]
        simp
      · exact ih _ h

lemma lookupReg_schedList_of_not_mem (l : List Message) (st : SchedState) (id : Nat)
    (h : ∀ m ∈ l, m.id ≠ id) :
    lookupReg id (schedList l st).registry = lookupReg id st.registry := by
  induction l generalizing st with
  | nil => rfl
  | cons a rest ih =>
      show lookupReg id (schedList rest
        (ScheduleMessage true st a.id (a.postponedAt.getD 0))).registry = _
      rw [ih _ (fun m hm => h m (List.mem_cons_of_mem a hm))]
      simp only [ScheduleMessage, if_true, lookupReg_insertReg]
      simp [show (a.id == id) = false by simp [h a (List.mem_cons_self a rest)]]

lemma countP_id_eq_one (l : List Message) (h : (l.map Message.id).Nodup)
    (m : Message) (hm : m ∈ l) :
    l.countP (fun x => x.id == m.id) = 1 := by
  induction l with
  | nil => cases hm
  | cons a rest ih =>
      simp only [List.map_cons, List.nodup_cons] at h
      rcases List.mem_cons.mp hm with hh | hh
      · subst hh
        have hz : rest.countP (fun x => x.id == m.id) = 0 := by
          apply List.countP_eq_zero.mpr
          intro x hx hbeq
          have hxid : x.id = m.id := by simpa using hbeq
          have hmem := List.mem_map_of_mem Message.id hx
          rw [hxid] at hmem
          exact h.1 hmem
        rw [List.countP_cons, hz]
        simp
      · have h1 : rest.countP (fun x => x.id == m.id) = 1 := ih h.2 hh
        rw [List.countP_cons, h1]
        have hne : (a.id == m.id) = false := by
          simp only [beq_eq_false_iff_ne, ne_eq]
          intro heq
          have hmem := List.mem_map_of_mem Message.id hh
          rw [← heq] at hmem
          exact h.1 hmem
        simp [hne]

lemma countP_id_eq_zero_not_due (now : Instant) (store : Store)
    (hids : (store.messages.map Message.id).Nodup)
    (m : Message) (hm : m ∈ store.messages) (hdue : isDue now m = false) :
    (store.messages.filter (isDue now)).countP (fun x => x.id == m.id) = 0 := by
  apply List.countP_eq_zero.mpr
  intro x hx hbeq
  have hxid : x.id = m.id := by simpa using hbeq
  obtain ⟨hxmem, hxdue⟩ := List.mem_filter.mp hx
  have hxm : x = m := List.inj_on_of_nodup_map hids hxmem hm hxid
  rw [hxm, hdue] at hxdue
  cases hxdue

lemma registryOk_ScheduleMessage (b : Bool) (st : SchedState) (id : Nat) (t : Instant)
    (h : registryOk st) : registryOk (ScheduleMessage b st id t) := by
  cases b
  · exact h
  · exact nodupKeys_insertReg id st.nextJobId st.registry h

lemma registryOk_DeleteMessageSchedule (st : SchedState) (m : Message)
    (h : registryOk st) : registryOk (DeleteMessageSchedule st m) := by
  unfold DeleteMessageSchedule
  cases lookupReg m.id st.registry
  · exact h
  · exact nodupKeys_eraseReg m.id st.registry h

lemma registryOk_cancelFold (l : List Message) (st : SchedState)
    (h : registryOk st) : registryOk (l.foldl DeleteMessageSchedule st) := by
  induction l generalizing st with
  | nil => exact h
  | cons a rest ih => exact ih _ (registryOk_DeleteMessageSchedule st a h)

lemma registryOk_cascadeApp (store : Store) (st : SchedState) (appId : Nat)
    (h : registryOk st) :
    registryOk (DeleteMessagesScheduleByApplication store st appId) :=
  registryOk_cancelFold _ _ h

lemma registryOk_cascadeFold (store : Store) (apps : List Application)
    (st : SchedState) (h : registryOk st) :
    registryOk (apps.foldl
      (fun s a => DeleteMessagesScheduleByApplication store s a.id) st) := by
  induction apps generalizing st with
  | nil => exact h
  | cons a rest ih => exact ih _ (registryOk_cascadeApp store st a.id h)

lemma registryOk_runOp (dir : Directory) (store : Store) (st : SchedState)
    (op : SchedOp) (h : registryOk st) : registryOk (runOp dir store st op) := by
  cases op with
  | schedule b id t => exact registryOk_ScheduleMessage b st id t h
  | cancel m => exact registryOk_DeleteMessageSchedule st m h
  | fire id =>
      show registryOk (match fireTask store st id with
        | .panicked _ => st
        | .ok st' _ _ => st')
      unfold fireTask
      cases hs : storeFirst store id with
      | error e => exact h
      | ok msg => exact registryOk_DeleteMessageSchedule st msg h
  | cascadeApp a => exact registryOk_cascadeApp store st a h
  | cascadeUser u => exact registryOk_cascadeFold store _ st h

/-! Claim theorems. -/

/-- C1 (counterexample): the claim says the fire-time callback clears the
message's `postponedAt` in the Message Store before handing the message
to the Dispatch Sink.  At the concrete input (message 1 postponed to
instant 5, one live job), the callback returns the store unchanged: the
persisted message still carries `postponedAt = some 5`, and the message
handed to the sink carries the postponement as well. -/
theorem C1_fire_does_not_clear_postponement_counterexample :
    (fireTask exStore1 exSt1 1).storeOf = some exStore1 ∧
    exStore1.messages.map Message.postponedAt = [some 5] ∧
    (fireTask exStore1 exSt1 1).messageOf.map MessageExternal.postponedAt
      = some (some 5) ∧
    (fireTask exStore1 exSt1 1).stateOf = some ⟨[], [], 1⟩ :=
  ⟨rfl, rfl, rfl, rfl⟩

/-- C1 (amended): when the fire-time reload succeeds, the callback
removes only the Job Registry entry and invokes the Dispatch Sink with
the message exactly as loaded; it performs no store write, so the
persisted `postponedAt` is left intact (the code's comment keeps the
postponed date and time), and the delivered message carries the original
`postponedAt`. -/
theorem C1_fire_keeps_postponement_amended (store : Store) (st : SchedState)
    (msgId : Nat) (m : Message) (h : storeFirst store msgId = .ok m) :
    fireTask store st msgId =
      .ok (DeleteMessageSchedule st m) (m.applicationID, ToExternalMessage m) store ∧
    (ToExternalMessage m).postponedAt = m.postponedAt := by
  constructor
  · simp [fireTask, h]
  · cases he : m.extras <;> simp [ToExternalMessage, he]

/-- C1 (witness): the amended theorem applied to the store holding
message 1 postponed to instant 5. -/
theorem C1_fire_keeps_postponement_witness :
    fireTask exStore1 exSt1 1 =
      .ok (DeleteMessageSchedule exSt1 exMsg1)
        (exMsg1.applicationID, ToExternalMessage exMsg1) exStore1 ∧
    (ToExternalMessage exMsg1).postponedAt = exMsg1.postponedAt :=
  C1_fire_keeps_postponement_amended exStore1 exSt1 1 exMsg1 rfl

/-- C2 (code bug): the fire-time callback is meant to pass the owning
user's identifier to the Dispatch Sink (the code even names the local
variable `userId`, and `Notify`'s parameter is `userID`), matching
`CreateMessage`'s immediate path, which notifies the authenticated
application's owner.  The code instead passes `message.ApplicationID`:
for application 5 owned by user 2, the fired delivery targets identifier
5 while the immediate path targets the owner 2. -/
theorem C2_fire_notifies_application_id_bug :
    exMsg5.applicationID = exApp5.id ∧
    (fireTask exStore5 exSt1 1).targetOf = some 5 ∧
    createMessageNotifyTarget exApp5 = 2 ∧ (5 : Nat) ≠ 2 :=
  ⟨rfl, rfl, rfl, by decide⟩

/-- C3 (code bug): a fire-time failure to reload the message is meant to
abort only that job (silently for a concurrently deleted message, logged
for an I/O failure), never to be process-fatal.  The code instead calls
`panic(db.Error)` on any reload error: with the message deleted the task
panics with record-not-found, and with a failing read it panics with the
I/O error. -/
theorem C3_fire_panics_on_store_error_bug :
    fireTask exStoreEmpty exSt1 1 = .panicked .recordNotFound ∧
    fireTask exStoreFail exSt1 1 = .panicked .ioError :=
  ⟨rfl, rfl⟩

/-- C4: for every message identifier and every instant `atT` not strictly
in the future, `ScheduleMessage` (with the Timer Engine honouring its
spec contract of accepting any instant) registers a job under the
identifier without error, and the engine holds a one-shot job for that
message whose fire instant has already been reached, so it fires as soon
as possible; the Scheduler interface itself performs no rejection of past
instants. -/
theorem C4_past_instant_scheduled_and_fires_asap (st : SchedState)
    (msgId : Nat) (atT now : Instant) (h : atT ≤ now) :
    lookupReg msgId (ScheduleMessage true st msgId atT).registry
      = some st.nextJobId ∧
    ∃ j ∈ (ScheduleMessage true st msgId atT).engine,
      j.msgId = msgId ∧ j.fireAt = atT ∧ j.fireAt ≤ now := by
  constructor
  · simp [ScheduleMessage, insertReg, lookupReg]
  · refine ⟨⟨st.nextJobId, msgId, atT⟩, ?_, rfl, rfl, h⟩
    simp [ScheduleMessage]

/-- C4 (witness): scheduling message 1 at the past instant -5, seen from
instant 0, registers job handle 0 and the engine job is already ripe. -/
theorem C4_past_instant_witness :
    lookupReg 1 (ScheduleMessage true initState 1 (-5)).registry = some 0 ∧
    ∃ j ∈ (ScheduleMessage true initState 1 (-5)).engine,
      j.msgId = 1 ∧ j.fireAt = -5 ∧ j.fireAt ≤ 0 :=
  C4_past_instant_scheduled_and_fires_asap initState 1 (-5) 0 (by decide)

/-- C5: after `scheduleAll` runs at startup on the fresh state (distinct
persisted message ids, healthy store read, Timer Engine accepting),
every persisted message whose `postponedAt` is at or after `now` has
exactly one pending engine job and a registry entry, and every other
persisted message (postponement strictly before `now`, or none) has no
pending job and no registry entry. -/
theorem C5_recovery_schedules_exactly_due_messages (now : Instant)
    (store : Store) (hids : (store.messages.map Message.id).Nodup)
    (hread : store.readFails = false) :
    ∀ m ∈ store.messages,
      (isDue now m = true →
        liveJobs (scheduleAll now store initState) m.id = 1 ∧
        (lookupReg m.id (scheduleAll now store initState).registry).isSome = true) ∧
      (isDue now m = false →
        liveJobs (scheduleAll now store initState) m.id = 0 ∧
        lookupReg m.id (scheduleAll now store initState).registry = none) := by
  intro m hm
  have hL : storeFindDue now store = store.messages.filter (isDue now) := by
    simp [storeFindDue, hread]
  have hLnodup : ((store.messages.filter (isDue now)).map Message.id).Nodup :=
    ((List.filter_sublist _).map _).nodup hids
  constructor
  · intro hdue
    have hmL : m ∈ store.messages.filter (isDue now) :=
      List.mem_filter.mpr ⟨hm, hdue⟩
    constructor
    · show liveJobs (schedList (storeFindDue now store) initState) m.id = 1
      rw [hL, liveJobs_schedList, countP_id_eq_one _ hLnodup m hmL]
      simp [liveJobs, initState]
    · show (lookupReg m.id
        (schedList (storeFindDue now store) initState).registry).isSome = true
      rw [hL]
      exact lookupReg_schedList_of_mem _ _ _ hmL
  · intro hdue
    constructor
    · show liveJobs (schedList (storeFindDue now store) initState) m.id = 0
      rw [hL, liveJobs_schedList, countP_id_eq_zero_not_due now store hids m hm hdue]
      simp [liveJobs, initState]
    · show lookupReg m.id
        (schedList (storeFindDue now store) initState).registry = none
      rw [hL, lookupReg_schedList_of_not_mem]
      · rfl
      · intro x hx heq
        obtain ⟨hxmem, hxdue⟩ := List.mem_filter.mp hx
        have hxm : x = m := List.inj_on_of_nodup_map hids hxmem hm heq
        rw [hxm, hdue] at hxdue
        cases hxdue

/-- C5 (witness): recovery at instant 0 over a store with message 1 due
at 10 and message 2 overdue at -3 leaves exactly one live job for
message 1 and none for message 2. -/
theorem C5_recovery_witness :
    liveJobs (scheduleAll 0 exStoreW initState) 1 = 1 ∧
    (lookupReg 1 (scheduleAll 0 exStoreW initState).registry).isSome = true ∧
    liveJobs (scheduleAll 0 exStoreW initState) 2 = 0 ∧
    lookupReg 2 (scheduleAll 0 exStoreW initState).registry = none := by
  have h1 := (C5_recovery_schedules_exactly_due_messages 0 exStoreW
    (by decide) rfl exMsgW1 (List.mem_cons_self _ _)).1 rfl
  have h2 := (C5_recovery_schedules_exactly_due_messages 0 exStoreW
    (by decide) rfl exMsgW2
    (List.mem_cons_of_mem _ (List.mem_cons_self _ _))).2 rfl
  exact ⟨h1.1, h1.2, h2.1, h2.2⟩

/-- C6 (counterexample): the claim says scheduling an identifier that
already has a live job cancels or replaces the existing one, never
leaving two competing timers.  Scheduling message 1 twice in a row from
the fresh state leaves two pending engine jobs for message 1 (the second
map write overwrites only the registry entry, handle 1; the first timer,
handle 0, is never cancelled). -/
theorem C6_double_schedule_counterexample :
    liveJobs (ScheduleMessage true (ScheduleMessage true initState 1 10) 1 20) 1 = 2 ∧
    (ScheduleMessage true (ScheduleMessage true initState 1 10) 1 20).registry
      = [(1, 1)] :=
  ⟨rfl, rfl⟩

/-- C6 (amended): at every point of every sequence of schedule, cancel,
fire, and cascade-cancel operations, the Job Registry binds each message
identifier at most once (it is a map, and every write overwrites the
prior entry); scheduling an identifier that already has a live job
however replaces only the registry entry and does not cancel the prior
pending timer, which can leave a second, orphaned engine timer for the
same message (see the counterexample). -/
theorem C6_registry_unique_keys_amended (dir : Directory) (store : Store)
    (ops : List SchedOp) (st : SchedState) (h : registryOk st) :
    registryOk (runOps dir store st ops) := by
  induction ops generalizing st with
  | nil => exact h
  | cons op rest ih =>
      show registryOk (runOps dir store (runOp dir store st op) rest)
      exact ih _ (registryOk_runOp dir store st op h)

/-- C6 (witness): the registry keys stay unique across a concrete
schedule / re-schedule / cancel / fire sequence from the fresh state. -/
theorem C6_registry_unique_keys_witness :
    registryOk (runOps exDirEmpty exStoreW initState
      [.schedule true 1 10, .schedule true 1 20, .cancel exMsgW1, .fire 1]) :=
  C6_registry_unique_keys_amended exDirEmpty exStoreW
    [.schedule true 1 10, .schedule true 1 20, .cancel exMsgW1, .fire 1]
    initState (by simp [registryOk, initState])

/-- C7 (counterexample): the claim says a Timer Engine rejection is
reported to the caller of the schedule operation.  At the concrete input
(message 1 of application 7 owned by the authenticated user 2, engine
rejecting), the `postponeMessage` handler — the caller of
`ScheduleMessage` — completes with HTTP 200 and an empty registry:
`ScheduleMessage` returns nothing, so no failure reaches any caller. -/
theorem C7_engine_failure_counterexample :
    (postponeMessageCore false exDirOwner exStore1 initState 1 (some 10) 2).status
      = 200 ∧
    (postponeMessageCore false exDirOwner exStore1 initState 1 (some 10) 2).regOf
      = [] :=
  ⟨rfl, rfl⟩

/-- C7 (amended): when the Timer Engine rejects a schedule request,
`ScheduleMessage` abandons the attempt leaving the whole scheduler state
— in particular the Job Registry — unchanged; the failure is only
logged, not reported to the caller (the function returns nothing). -/
theorem C7_engine_failure_leaves_state_amended (st : SchedState)
    (msgId : Nat) (t : Instant) :
    ScheduleMessage false st msgId t = st :=
  rfl

/-- C8: cancelling a message identifier with no registry entry — never
scheduled, already fired, or already cancelled — is a no-op: the
function returns at once (it has no error to return) and the state,
registry included, is unchanged. -/
theorem C8_cancel_absent_is_noop (st : SchedState) (m : Message)
    (h : lookupReg m.id st.registry = none) :
    DeleteMessageSchedule st m = st := by
  simp [DeleteMessageSchedule, h]

/-- C8 (witness): cancelling message 1 on the fresh state (empty
registry) changes nothing. -/
theorem C8_cancel_absent_witness : DeleteMessageSchedule initState exMsg1 = initState :=
  C8_cancel_absent_is_noop initState exMsg1 rfl

/-- C9 (counterexample): the claim says a cascade read failure is
surfaced to the caller of the cascade operation.  With a failing store
read and a live job for message 1 of application 7 (owned by user 4),
both cascade operations return the state unchanged — the job survives
and, the functions returning nothing (the `Find` error is ignored and
the `GetApplicationsByUser` error is discarded into `_`), no failure
reaches the caller. -/
theorem C9_cascade_read_failure_counterexample :
    DeleteMessagesScheduleByApplication exStoreFail exSt1 7 = exSt1 ∧
    DeleteMessagesScheduleByUser exDirFail exStoreFail exSt1 4 = exSt1 :=
  ⟨rfl, rfl⟩

/-- C9 (amended): a cascade read failure is silently swallowed, not
surfaced: `DeleteMessagesScheduleByApplication` ignores the `Find` error
and iterates an empty slice, and `DeleteMessagesScheduleByUser` discards
the directory error, so both return with the scheduler state unchanged
and no error is reported (the functions return nothing). -/
theorem C9_cascade_read_failure_swallowed_amended (store storeB : Store)
    (dir : Directory) (st : SchedState) (appId userId : Nat)
    (hs : store.readFails = true) (hd : dir.readFails = true) :
    DeleteMessagesScheduleByApplication store st appId = st ∧
    DeleteMessagesScheduleByUser dir storeB st userId = st := by
  constructor
  · simp [DeleteMessagesScheduleByApplication, storeFindByApplication, hs]
  · simp [DeleteMessagesScheduleByUser, getApplicationsByUser, hd, Except.toOption]

/-- C9 (witness): the amended theorem applied to the failing store and
failing directory with a live job for message 1. -/
theorem C9_cascade_read_failure_witness :
    DeleteMessagesScheduleByApplication exStoreFail exSt1 7 = exSt1 ∧
    DeleteMessagesScheduleByUser exDirFail exStore1 exSt1 4 = exSt1 :=
  C9_cascade_read_failure_swallowed_amended exStoreFail exStore1 exDirFail
    exSt1 7 4 rfl rfl

/-- C10: for every external message with a non-nil `Priority` and nil
`Extras`, `ToExternalMessage` after `toInternalMessage` agrees with the
original on `ID`, `ApplicationID`, `Message`, `Title`, `Priority`,
`Date`, and `PostponedAt`; in particular the postponement timestamp is
never dropped or altered by the round trip. -/
theorem C10_roundtrip_preserves_fields (m : MessageExternal) (p : Int)
    (hp : m.priority = some p) (he : m.extras = none) :
    (ToExternalMessage (toInternalMessage m)).id = m.id ∧
    (ToExternalMessage (toInternalMessage m)).applicationID = m.applicationID ∧
    (ToExternalMessage (toInternalMessage m)).message = m.message ∧
    (ToExternalMessage (toInternalMessage m)).title = m.title ∧
    (ToExternalMessage (toInternalMessage m)).priority = m.priority ∧
    (ToExternalMessage (toInternalMessage m)).date = m.date ∧
    (ToExternalMessage (toInternalMessage m)).postponedAt = m.postponedAt := by
  simp [ToExternalMessage, toInternalMessage, hp, he]

/-- C10 (witness): the round trip applied to a concrete external message
with priority 4, date 11 and postponement 99. -/
theorem C10_roundtrip_witness :
    (ToExternalMessage (toInternalMessage exExt)).id = exExt.id ∧
    (ToExternalMessage (toInternalMessage exExt)).applicationID = exExt.applicationID ∧
    (ToExternalMessage (toInternalMessage exExt)).message = exExt.message ∧
    (ToExternalMessage (toInternalMessage exExt)).title = exExt.title ∧
    (ToExternalMessage (toInternalMessage exExt)).priority = exExt.priority ∧
    (ToExternalMessage (toInternalMessage exExt)).date = exExt.date ∧
    (ToExternalMessage (toInternalMessage exExt)).postponedAt = exExt.postponedAt :=
  C10_roundtrip_preserves_fields exExt 4 rfl rfl
